import Mathlib

/-!
# ArogyaSarathi case store: shallow embedding

Shallow embedding of the shared medical-case store and its read/write/poll
contract.  The data model (`MedicalCase`, `DoctorReply`, `MedicalImage`,
statuses and reply kinds) follows the persisted-state layout of the
repository; `createSymptomCase` follows the function body quoted verbatim
in `CODE_CHANGES_SUMMARY.md` / `SYMPTOM_PERSISTENCE_FIX.md`; the remaining
store operations (`getAllCases`, `getCasesByPatient`, `getCaseById`,
`addDoctorReply`, `saveCaseToStorage`) live in
`services/medicalCasesService.ts`, which is not part of the available
sources, and are therefore modelled from the specification's operation
descriptions.  `SymptomDisplay` (the poll-and-render path) is embedded
from `components/SymptomDisplay.tsx`.

Time (`Date.now()`) is passed explicitly as a `Nat` parameter; the browser
key-value storage slot is modelled by `StoredRaw`, which distinguishes an
absent key, a value that fails to parse, and a well-formed collection.
-/

/-- Reply kind: `type: "PRESCRIPTION" | "DOCTOR_NOTE"` in the persisted layout. -/
inductive ReplyType where
  | PRESCRIPTION
  | DOCTOR_NOTE
deriving DecidableEq

/-- Case status: `status: "PENDING" | "REVIEWED" | "RESOLVED"` in the persisted layout. -/
inductive CaseStatus where
  | PENDING
  | REVIEWED
  | RESOLVED
deriving DecidableEq

/-- An image attachment: `{ imageId, filename, base64Data }`. -/
structure MedicalImage where
  imageId : String
  filename : String
  base64Data : String
deriving DecidableEq

/-- A doctor reply record, as in the persisted layout
`{ replyId, doctorId, doctorName, specialization, content, type, medication?, timestamp }`.
The optional `medication` field is `Option String`; `timestamp` is the
millisecond clock value at creation. -/
structure DoctorReply where
  replyId : String
  doctorId : String
  doctorName : String
  specialization : String
  content : String
  type : ReplyType
  medication : Option String
  timestamp : Nat
deriving DecidableEq

/-- A case record, as in the `MedicalCase` interface of
`services/medicalCasesService.ts` (quoted in `SYMPTOM_PERSISTENCE_FIX.md`):
identity and denormalized patient fields, optional `symptomText`, image
list, reply list, status, and the two timestamps. -/
structure MedicalCase where
  caseId : String
  patientId : String
  patientName : String
  patientAge : Nat
  patientPhone : String
  patientDistrict : String
  patientState : String
  symptomText : Option String
  images : List MedicalImage
  replies : List DoctorReply
  status : CaseStatus
  createdAt : Nat
  updatedAt : Nat
deriving DecidableEq

/-- The `localStorage['medicalCases']` slot: either the key is absent, or it
holds a value that fails to parse as a case array, or it holds a
well-formed serialized collection. -/
inductive StoredRaw where
  | absent
  | malformed
  | good (cases : List MedicalCase)
deriving DecidableEq

/-- Modelled from the spec: `getAllCases` of `services/medicalCasesService.ts`
(not among the available sources) "returns the full persisted collection in
storage order" and "fails soft: if the persisted value is absent or fails to
parse as the expected shape, returns an empty sequence rather than raising". -/
def getAllCases : StoredRaw → List MedicalCase
  | .absent => []
  | .malformed => []
  | .good cs => cs

/-- Modelled from the spec: `getCasesByPatient` of
`services/medicalCasesService.ts` (not among the available sources) "returns
the subsequence of `getAllCases()` whose `patientId` equals the argument,
preserving order". -/
def getCasesByPatient (patientId : String) (raw : StoredRaw) : List MedicalCase :=
  (getAllCases raw).filter (fun c => c.patientId == patientId)

/-- Modelled from the spec: `getCaseById` of `services/medicalCasesService.ts`
(not among the available sources) is a "linear lookup by id over the full
collection", returning the case or a not-found signal (`none`). -/
def getCaseById (caseId : String) (raw : StoredRaw) : Option MedicalCase :=
  (getAllCases raw).find? (fun c => c.caseId == caseId)

/-- Modelled from the spec: `saveCaseToStorage` of
`services/medicalCasesService.ts` (not among the available sources) "appends
it to the persisted collection", serializing the whole collection back into
the `medicalCases` slot. -/
def saveCaseToStorage (c : MedicalCase) (raw : StoredRaw) : StoredRaw :=
  .good (getAllCases raw ++ [c])

/-- Case-id generation from `createSymptomCase`:
`const caseId = ` followed by the template `CASE-(patientId)-(Date.now())`. -/
def mkCaseId (patientId : String) (now : Nat) : String :=
  "CASE-" ++ patientId ++ "-" ++ toString now

/-- The function `createSymptomCase` from `services/medicalCasesService.ts`, whose body is
quoted in `CODE_CHANGES_SUMMARY.md` lines 21-55: builds the new case with
the given patient fields, the symptom text, empty `images` and `replies`,
status `PENDING`, `createdAt = updatedAt = Date.now()`, saves it via
`saveCaseToStorage`, and returns it.  The returned pair is (created case,
storage after the save). -/
def createSymptomCase (patientId patientName : String) (patientAge : Nat)
    (patientPhone patientDistrict patientState symptomText : String)
    (now : Nat) (raw : StoredRaw) : MedicalCase × StoredRaw :=
  let caseId := mkCaseId patientId now
  let newCase : MedicalCase :=
    { caseId := caseId
      patientId := patientId
      patientName := patientName
      patientAge := patientAge
      patientPhone := patientPhone
      patientDistrict := patientDistrict
      patientState := patientState
      symptomText := some symptomText
      images := []
      replies := []
      status := .PENDING
      createdAt := now
      updatedAt := now }
  (newCase, saveCaseToStorage newCase raw)

/-- Modelled from the spec: the fresh reply id generated inside
`addDoctorReply` of `services/medicalCasesService.ts` (not among the
available sources); the spec says only "a fresh reply id", and the
documentation shows ids of the form `REPLY-(number)`. -/
def mkReplyId (now : Nat) : String :=
  "REPLY-" ++ toString now

/-- Modelled from the spec: the per-case mutation performed by
`addDoctorReply` — "appends it to that case's reply list, sets status to
reviewed if not already resolved, sets updatedAt to current time". -/
def appendReplyToCase (r : DoctorReply) (now : Nat) (c : MedicalCase) : MedicalCase :=
  { c with
      replies := c.replies ++ [r]
      status := if c.status = .RESOLVED then .RESOLVED else .REVIEWED
      updatedAt := now }

/-- Replace the first case whose `caseId` matches, leaving the rest of the
collection untouched (the in-place update of the located case before the
full collection is persisted back). -/
def updateFirstCase (caseId : String) (f : MedicalCase → MedicalCase) :
    List MedicalCase → List MedicalCase
  | [] => []
  | c :: cs =>
      if c.caseId == caseId then f c :: cs else c :: updateFirstCase caseId f cs

/-- Modelled from the spec: `addDoctorReply` of
`services/medicalCasesService.ts` (not among the available sources) —
"locates the case by id; if absent, signals a not-found condition;
otherwise constructs a new reply record with a fresh reply id and current
timestamp, appends it to that case's reply list, sets status to reviewed if
not already resolved, sets updatedAt to current time, persists the full
mutated collection back to storage".  Returns (updated case or not-found,
storage after the call). -/
def addDoctorReply (caseId doctorId doctorName specialization content : String)
    (type : ReplyType) (medication : Option String) (now : Nat) (raw : StoredRaw) :
    Option MedicalCase × StoredRaw :=
  match getCaseById caseId raw with
  | none => (none, raw)
  | some c =>
      let reply : DoctorReply :=
        { replyId := mkReplyId now
          doctorId := doctorId
          doctorName := doctorName
          specialization := specialization
          content := content
          type := type
          medication := medication
          timestamp := now }
      (some (appendReplyToCase reply now c),
        .good (updateFirstCase caseId (appendReplyToCase reply now) (getAllCases raw)))

/-! ## Poll-and-render path (`components/SymptomDisplay.tsx`) -/

/-- The React state of `SymptomDisplay`:
`const [cases, setCases] = useState<MedicalCase[]>([])` and
`const [loading, setLoading] = useState(true)`. -/
structure SymptomDisplayState where
  cases : List MedicalCase
  loading : Bool
deriving DecidableEq

/-- The initial component state on mount: empty case list, loading flag set. -/
def initialSymptomDisplayState : SymptomDisplayState :=
  { cases := [], loading := true }

/-- JavaScript truthiness of the optional `symptomText` field, as used by
the filter `patientCases.filter((c) => c.symptomText)`: an absent field and
the empty string are falsy, every other string is truthy. -/
def symptomTextTruthy (c : MedicalCase) : Bool :=
  match c.symptomText with
  | none => false
  | some s => s != ""

/-- The function `loadCases` from `SymptomDisplay.tsx` lines 44-55: reads
`getCasesByPatient(patientId)`, keeps only cases whose `symptomText` is
truthy, stores them with `setCases`, and clears the loading flag.  The
surrounding `try`/`catch` only logs on an exception; in this embedding the
store read is total (it fails soft), so the catch branch is unreachable. -/
def loadCases (patientId : String) (raw : StoredRaw) (st : SymptomDisplayState) :
    SymptomDisplayState :=
  { st with
      cases := (getCasesByPatient patientId raw).filter symptomTextTruthy
      loading := false }

/-- One poll tick of the component: run `loadCases` against the current
storage.  Rendering and loading never write the store, so the storage
component is returned unchanged. -/
def symptomDisplayTick (patientId : String) (raw : StoredRaw)
    (st : SymptomDisplayState) : SymptomDisplayState × StoredRaw :=
  (loadCases patientId raw st, raw)

/-- What `SymptomDisplay` renders: the loading placeholder while
`loading` is set, the "No symptoms recorded yet." empty display when the
case list is empty, and otherwise the case cards produced by
`cases.slice().reverse().map(...)` (newest first). -/
inductive SymptomView where
  | loadingView
  | emptyView
  | caseList (cs : List MedicalCase)
deriving DecidableEq

/-- The render function of `SymptomDisplay.tsx` lines 64-92. -/
def renderSymptomDisplay (st : SymptomDisplayState) : SymptomView :=
  if st.loading then .loadingView
  else if st.cases.isEmpty then .emptyView
  else .caseList st.cases.reverse

/-- The sequence of case cards shown by a view (empty for the loading and
empty-state displays). -/
def renderedCases : SymptomView → List MedicalCase
  | .loadingView => []
  | .emptyView => []
  | .caseList cs => cs

/-! ## Timer model for the polling loop -/

/-- The shape of the polling effect installed by the `useEffect` of
`SymptomDisplay.tsx` lines 43-62: an immediate `loadCases()` call, a
repeating `setInterval(loadCases, period)` timer, and a cleanup function
that calls `clearInterval` on teardown. -/
structure PollEffect where
  immediateRead : Bool
  intervalPeriod : Nat
  cleanupCancelsInterval : Bool
deriving DecidableEq

/-- The effect installed by `SymptomDisplay`: `loadCases(); const interval =
setInterval(loadCases, 3000); return () => clearInterval(interval);`. -/
def symptomDisplayEffect : PollEffect :=
  { immediateRead := true
    intervalPeriod := 3000
    cleanupCancelsInterval := true }

/-- Timer semantics of such an effect, with the mount at logical time 0 and
the teardown of the view at time `teardown`: whether a store read runs at
time `t`.  While mounted, a read runs at time 0 when an immediate read was
requested, and at every positive multiple of the interval period; after
teardown, reads continue at multiples of the period only if the cleanup
did not cancel the interval timer. -/
def pollReadsAt (e : PollEffect) (teardown t : Nat) : Bool :=
  if t < teardown then
    (t == 0 && e.immediateRead) || (t != 0 && t % e.intervalPeriod == 0)
  else
    !e.cleanupCancelsInterval && t != 0 && t % e.intervalPeriod == 0

/-! ## Runs of the store operations -/

/-- The argument tuple of one `createSymptomCase` invocation, together with
the `Date.now()` value observed during the call. -/
structure CreateRequest where
  patientId : String
  patientName : String
  patientAge : Nat
  patientPhone : String
  patientDistrict : String
  patientState : String
  symptomText : String
  now : Nat
deriving DecidableEq

/-- Perform one `createSymptomCase` invocation on the storage. -/
def applyCreate (r : CreateRequest) (raw : StoredRaw) : StoredRaw :=
  (createSymptomCase r.patientId r.patientName r.patientAge r.patientPhone
    r.patientDistrict r.patientState r.symptomText r.now raw).2

/-- Perform a sequence of `createSymptomCase` invocations, oldest first. -/
def runCreates (reqs : List CreateRequest) (raw : StoredRaw) : StoredRaw :=
  reqs.foldl (fun acc r => applyCreate r acc) raw

/-- The case record a `createSymptomCase` invocation constructs (the record
itself does not depend on the storage contents). -/
def caseOfRequest (r : CreateRequest) : MedicalCase :=
  (createSymptomCase r.patientId r.patientName r.patientAge r.patientPhone
    r.patientDistrict r.patientState r.symptomText r.now StoredRaw.absent).1

/-- Storage states reachable through the core's write operations, starting
from a fresh browser profile where the `medicalCases` key is absent.  The
read operations do not change the storage. -/
inductive CoreReachable : StoredRaw → Prop where
  | init : CoreReachable .absent
  | create (r : CreateRequest) {raw : StoredRaw} :
      CoreReachable raw → CoreReachable (applyCreate r raw)
  | reply (caseId doctorId doctorName specialization content : String)
      (ty : ReplyType) (medication : Option String) (now : Nat) {raw : StoredRaw} :
      CoreReachable raw →
      CoreReachable (addDoctorReply caseId doctorId doctorName specialization
        content ty medication now raw).2

/-! ## Concrete sample stores (used by witnesses and counterexamples) -/

/-- A first symptom submission by patient `PAT-1` at millisecond 5. -/
def demoReq1 : CreateRequest :=
  { patientId := "PAT-1", patientName := "John", patientAge := 30
    patientPhone := "98", patientDistrict := "Hyd", patientState := "TS"
    symptomText := "cough and cold", now := 5 }

/-- A second submission by the same patient in the same millisecond
(a rapid consecutive submission), with different text. -/
def demoReq2 : CreateRequest :=
  { demoReq1 with symptomText := "fever" }

/-- Storage after the first submission. -/
def demoStore1 : StoredRaw := applyCreate demoReq1 .absent

/-- Storage after the two same-millisecond submissions. -/
def demoStore2 : StoredRaw := applyCreate demoReq2 demoStore1

/-- The decoding of a most-significant-first list of decimal digit
characters, used to show that `Nat.repr` is injective. -/
def decodeDigits (l : List Char) : Nat :=
  l.foldl (fun a c => 10 * a + (c.toNat - 48)) 0

/-- A second submission by the same patient one millisecond later. -/
def demoReq3 : CreateRequest :=
  { demoReq1 with symptomText := "fever", now := 6 }

/-- The doctor reply submitted in the sample scenario of the spec
(doctor `DOC-1`, note with medication, at millisecond 9). -/
def demoReply : DoctorReply :=
  { replyId := mkReplyId 9, doctorId := "DOC-1", doctorName := "Dr. Smith"
    specialization := "Pulmonologist", content := "Sounds like viral infection"
    type := .DOCTOR_NOTE, medication := some "Aspirin 500mg", timestamp := 9 }

/-- Storage after the sample reply to the first submission's case. -/
def demoRepliedStore : StoredRaw :=
  (addDoctorReply "CASE-PAT-1-5" "DOC-1" "Dr. Smith" "Pulmonologist"
    "Sounds like viral infection" .DOCTOR_NOTE (some "Aspirin 500mg") 9 demoStore1).2

/-- The case record as it stands in `demoRepliedStore`. -/
def demoRepliedCase : MedicalCase :=
  appendReplyToCase demoReply 9 (caseOfRequest demoReq1)

/-!
## Helper lemmas

General facts about the embedded operations, shared by the claim theorems
below: membership and lookup behaviour of `updateFirstCase`, the shape of
storage after a run of submissions, and injectivity of the generated case
ids (via injectivity of the decimal representation `Nat.repr`).
-/

lemma updateFirstCase_length (caseId : String) (f : MedicalCase → MedicalCase) :
    ∀ l : List MedicalCase, (updateFirstCase caseId f l).length = l.length := by
  intro l
  induction l with
  | nil => rfl
  | cons c cs ih =>
      simp only [updateFirstCase]
      split <;> simp [ih]

lemma mem_updateFirstCase (caseId : String) (f : MedicalCase → MedicalCase) :
    ∀ (l : List MedicalCase) (c : MedicalCase), c ∈ updateFirstCase caseId f l →
      c ∈ l ∨ ∃ x ∈ l, c = f x := by
  intro l
  induction l with
  | nil => intro c hc; simp [updateFirstCase] at hc
  | cons d ds ih =>
      intro c hc
      simp only [updateFirstCase] at hc
      split at hc
      · rcases List.mem_cons.mp hc with h1 | h2
        · exact Or.inr ⟨d, List.mem_cons_self d ds, h1⟩
        · exact Or.inl (List.mem_cons_of_mem d h2)
      · rcases List.mem_cons.mp hc with h1 | h2
        · exact Or.inl (h1 ▸ List.mem_cons_self d ds)
        · rcases ih c h2 with h3 | ⟨x, hx, he⟩
          · exact Or.inl (List.mem_cons_of_mem d h3)
          · exact Or.inr ⟨x, List.mem_cons_of_mem d hx, he⟩

lemma find?_updateFirstCase (caseId : String) (f : MedicalCase → MedicalCase)
    (hpres : ∀ c, (f c).caseId = c.caseId) :
    ∀ (l : List MedicalCase) (c : MedicalCase),
      l.find? (fun x => x.caseId == caseId) = some c →
      (updateFirstCase caseId f l).find? (fun x => x.caseId == caseId) = some (f c) := by
  intro l
  induction l with
  | nil => intro c hc; simp at hc
  | cons d ds ih =>
      intro c hc
      simp only [updateFirstCase]
      by_cases hd : (d.caseId == caseId) = true
      · rw [if_pos hd]
        rw [List.find?_cons_of_pos (p := fun x : MedicalCase => x.caseId == caseId) _ hd] at hc
        cases hc
        rw [List.find?_cons_of_pos (p := fun x : MedicalCase => x.caseId == caseId) _
          (show ((f d).caseId == caseId) = true by rw [hpres d]; exact hd)]
      · rw [if_neg hd]
        rw [List.find?_cons_of_neg (p := fun x : MedicalCase => x.caseId == caseId) _ hd] at hc
        rw [List.find?_cons_of_neg (p := fun x : MedicalCase => x.caseId == caseId) _ hd]
        exact ih c hc

lemma getAllCases_applyCreate (r : CreateRequest) (raw : StoredRaw) :
    getAllCases (applyCreate r raw) = getAllCases raw ++ [caseOfRequest r] := rfl

lemma getAllCases_runCreates :
    ∀ (reqs : List CreateRequest) (raw : StoredRaw),
      getAllCases (runCreates reqs raw) = getAllCases raw ++ reqs.map caseOfRequest := by
  intro reqs
  induction reqs with
  | nil => intro raw; simp [runCreates]
  | cons r rs ih =>
      intro raw
      show getAllCases (runCreates rs (applyCreate r raw)) = _
      rw [ih, getAllCases_applyCreate]
      simp

lemma digitChar_ne_dash (n : Nat) : Nat.digitChar n ≠ '-' := by
  by_cases h : n < 16
  · interval_cases n <;> decide
  · have h0 : n ≠ 0 := by omega
    have h1 : n ≠ 1 := by omega
    have h2 : n ≠ 2 := by omega
    have h3 : n ≠ 3 := by omega
    have h4 : n ≠ 4 := by omega
    have h5 : n ≠ 5 := by omega
    have h6 : n ≠ 6 := by omega
    have h7 : n ≠ 7 := by omega
    have h8 : n ≠ 8 := by omega
    have h9 : n ≠ 9 := by omega
    have ha : n ≠ 10 := by omega
    have hb : n ≠ 11 := by omega
    have hc : n ≠ 12 := by omega
    have hd : n ≠ 13 := by omega
    have he : n ≠ 14 := by omega
    have hf : n ≠ 15 := by omega
    simp [Nat.digitChar, h0, h1, h2, h3, h4, h5, h6, h7, h8, h9, ha, hb, hc, hd, he, hf]

lemma dash_not_mem_toDigitsCore (b : Nat) :
    ∀ (f n : Nat) (acc : List Char), '-' ∉ acc → '-' ∉ Nat.toDigitsCore b f n acc := by
  intro f
  induction f with
  | zero => intro n acc h; simpa [Nat.toDigitsCore] using h
  | succ f ih =>
      intro n acc h
      simp only [Nat.toDigitsCore]
      split
      · intro hm
        rcases List.mem_cons.mp hm with h1 | h2
        · exact digitChar_ne_dash _ h1.symm
        · exact h h2
      · apply ih
        intro hm
        rcases List.mem_cons.mp hm with h1 | h2
        · exact digitChar_ne_dash _ h1.symm
        · exact h h2

lemma toDigitsCore_acc_append (b : Nat) :
    ∀ (f n : Nat) (acc : List Char),
      Nat.toDigitsCore b f n acc = Nat.toDigitsCore b f n [] ++ acc := by
  intro f
  induction f with
  | zero => intro n acc; simp [Nat.toDigitsCore]
  | succ f ih =>
      intro n acc
      simp only [Nat.toDigitsCore]
      split
      · simp
      · rw [ih _ (_ :: acc), ih _ [_]]
        simp

lemma digitChar_toNat (m : Nat) (h : m < 10) : (Nat.digitChar m).toNat - 48 = m := by
  interval_cases m <;> decide

lemma decodeDigits_append_single (l : List Char) (c : Char) :
    decodeDigits (l ++ [c]) = 10 * decodeDigits l + (c.toNat - 48) := by
  simp [decodeDigits, List.foldl_append]

lemma decode_toDigitsCore :
    ∀ (f n : Nat), n < f → decodeDigits (Nat.toDigitsCore 10 f n []) = n := by
  intro f
  induction f with
  | zero => intro n h; omega
  | succ f ih =>
      intro n h
      simp only [Nat.toDigitsCore]
      split
      · rename_i h0
        have hn : n < 10 := by
          by_contra hc
          have := Nat.div_le_div_right (c := 10) (Nat.le_of_not_lt hc)
          simp [Nat.div_self] at this
          omega
        have : n % 10 = n := Nat.mod_eq_of_lt hn
        simp [decodeDigits, this, digitChar_toNat n hn]
      · rename_i h0
        rw [toDigitsCore_acc_append, decodeDigits_append_single]
        have hd : n / 10 < f := by
          have h1 : n / 10 < n := Nat.div_lt_self (by omega) (by norm_num)
          omega
        rw [ih _ hd, digitChar_toNat _ (Nat.mod_lt _ (by norm_num))]
        omega

lemma repr_data (n : Nat) : (Nat.repr n).data = Nat.toDigits 10 n := rfl

lemma nat_repr_injective {m n : Nat} (h : Nat.repr m = Nat.repr n) : m = n := by
  have hd : Nat.toDigits 10 m = Nat.toDigits 10 n := by
    rw [← repr_data, ← repr_data, h]
  have hm := decode_toDigitsCore (m + 1) m (Nat.lt_succ_self m)
  have hn := decode_toDigitsCore (n + 1) n (Nat.lt_succ_self n)
  unfold Nat.toDigits at hd
  rw [hd] at hm
  rw [hm] at hn
  exact hn.symm ▸ rfl

lemma toString_nat_eq_repr (n : Nat) : toString n = Nat.repr n := rfl

lemma dash_not_mem_repr (n : Nat) : '-' ∉ (Nat.repr n).data := by
  rw [repr_data]
  exact dash_not_mem_toDigitsCore 10 _ _ [] (by simp)

lemma firstDashSplit :
    ∀ (x₁ : List Char) {y₁ x₂ y₂ : List Char},
      x₁ ++ '-' :: y₁ = x₂ ++ '-' :: y₂ → '-' ∉ x₁ → '-' ∉ x₂ →
      x₁ = x₂ ∧ y₁ = y₂ := by
  intro x₁
  induction x₁ with
  | nil =>
      intro y₁ x₂ y₂ heq hx₁ hx₂
      cases x₂ with
      | nil => simpa using heq
      | cons c cs =>
          simp only [List.nil_append, List.cons_append, List.cons.injEq] at heq
          exact absurd (show '-' ∈ c :: cs by rw [heq.1]; exact List.mem_cons_self c cs) hx₂
  | cons c cs ih =>
      intro y₁ x₂ y₂ heq hx₁ hx₂
      cases x₂ with
      | nil =>
          simp only [List.cons_append, List.nil_append, List.cons.injEq] at heq
          exact absurd heq.1 (by intro hh; exact hx₁ (hh ▸ List.mem_cons_self c cs))
      | cons d ds =>
          simp only [List.cons_append, List.cons.injEq] at heq
          have := ih heq.2 (fun hm => hx₁ (List.mem_cons_of_mem c hm))
            (fun hm => hx₂ (List.mem_cons_of_mem d hm))
          exact ⟨by rw [heq.1, this.1], this.2⟩

lemma mkCaseId_inj {p₁ p₂ : String} {t₁ t₂ : Nat}
    (h : mkCaseId p₁ t₁ = mkCaseId p₂ t₂) : p₁ = p₂ ∧ t₁ = t₂ := by
  have hd : ("CASE-".data ++ p₁.data) ++ '-' :: (Nat.repr t₁).data
      = ("CASE-".data ++ p₂.data) ++ '-' :: (Nat.repr t₂).data := by
    have := congrArg String.data h
    simpa [mkCaseId, String.data_append, toString_nat_eq_repr, List.append_assoc] using this
  have hrev : ((Nat.repr t₁).data.reverse ++ '-' :: (p₁.data.reverse ++ "CASE-".data.reverse))
      = ((Nat.repr t₂).data.reverse ++ '-' :: (p₂.data.reverse ++ "CASE-".data.reverse)) := by
    have := congrArg List.reverse hd
    simpa [List.reverse_append] using this
  have hs := firstDashSplit _ hrev
    (fun hm => dash_not_mem_repr t₁ (List.mem_reverse.mp hm))
    (fun hm => dash_not_mem_repr t₂ (List.mem_reverse.mp hm))
  constructor
  · have hp : p₁.data.reverse = p₂.data.reverse := List.append_cancel_right hs.2
    apply String.ext
    have := congrArg List.reverse hp
    simpa using this
  · have hr : (Nat.repr t₁).data = (Nat.repr t₂).data := by
      have := congrArg List.reverse hs.1
      simpa using this
    exact nat_repr_injective (String.ext hr)

/-!
## Claim theorems
-/

/-- C5: for every stored value under the persistence key — including an
absent key and a value that fails to parse as the expected shape —
`getAllCases()` returns an empty sequence rather than raising an error.
In the embedding `getAllCases` is a total function (no error channel), so
nothing is ever surfaced to the caller as an exception; the logging of the
parse failure is a side effect outside the embedded state. -/
theorem claim_C5_getAllCases_failSoft (raw : StoredRaw)
    (h : raw = StoredRaw.absent ∨ raw = StoredRaw.malformed) :
    getAllCases raw = [] := by
  rcases h with rfl | rfl <;> rfl

/-- Witness for C5 at the absent key. -/
theorem claim_C5_witness : getAllCases StoredRaw.absent = [] :=
  claim_C5_getAllCases_failSoft StoredRaw.absent (Or.inl rfl)

/-- C4: `getCasesByPatient(p)` returns exactly the subsequence of
`getAllCases()` whose elements have `patientId` equal to `p`, in the same
relative order: it is a sublist (order-preserving), and every case record
occurs in it exactly as often as in the full collection when its
`patientId` matches, and never otherwise. -/
theorem claim_C4_getCasesByPatient_subsequence (pid : String) (raw : StoredRaw) :
    (getCasesByPatient pid raw).Sublist (getAllCases raw) ∧
    ∀ c : MedicalCase, (getCasesByPatient pid raw).count c =
      if c.patientId = pid then (getAllCases raw).count c else 0 := by
  constructor
  · exact List.filter_sublist _
  · intro c
    by_cases hcp : c.patientId = pid
    · rw [if_pos hcp]
      exact List.count_filter (by simp [hcp])
    · rw [if_neg hcp]
      rw [List.count_eq_zero]
      intro hm
      rcases List.mem_filter.mp hm with ⟨hmem, hpred⟩
      exact hcp (by simpa using hpred)

/-- C3: for every `caseId` absent from the collection, `addDoctorReply`
signals a not-found condition (`none`) and returns the stored collection
exactly as it was — no case added, removed, or mutated.  The embedded
operation is total, so no uncaught error is possible. -/
theorem claim_C3_addDoctorReply_notFound
    (caseId doctorId doctorName specialization content : String)
    (ty : ReplyType) (medication : Option String) (now : Nat) (raw : StoredRaw)
    (h : getCaseById caseId raw = none) :
    addDoctorReply caseId doctorId doctorName specialization content ty medication now raw
      = (none, raw) := by
  unfold addDoctorReply
  rw [h]

/-- Witness for C3: replying to `CASE-DOES-NOT-EXIST` on a store holding one
case leaves the store untouched and reports not-found. -/
theorem claim_C3_witness :
    addDoctorReply "CASE-DOES-NOT-EXIST" "DOC-1" "Dr. Smith" "Pulmonologist"
      "Sounds like viral infection" ReplyType.DOCTOR_NOTE (some "Aspirin 500mg") 9 demoStore1
      = (none, demoStore1) :=
  claim_C3_addDoctorReply_notFound "CASE-DOES-NOT-EXIST" "DOC-1" "Dr. Smith" "Pulmonologist"
    "Sounds like viral infection" ReplyType.DOCTOR_NOTE (some "Aspirin 500mg") 9 demoStore1
    (by decide)

lemma getCaseById_saveCaseToStorage (c : MedicalCase) (raw : StoredRaw)
    (h : getCaseById c.caseId raw = none) :
    getCaseById c.caseId (saveCaseToStorage c raw) = some c := by
  unfold getCaseById saveCaseToStorage at *
  rw [show getAllCases (StoredRaw.good (getAllCases raw ++ [c])) = getAllCases raw ++ [c]
    from rfl]
  rw [List.find?_append, h]
  simp

/-- C2 (amended): for every valid input tuple, `createSymptomCase` returns a
Case carrying the generated id, the given patient fields, the input
symptom text, empty image and reply lists, status `PENDING`, and
`createdAt = updatedAt = now`, and appends exactly that Case to the
persisted collection; provided no case with the generated id already
exists in the store, an immediately following `getCaseById(caseId)`
returns the new Case.  (Without that freshness proviso the lookup clause
fails: see the counterexample, where a same-millisecond submission by the
same patient produces a colliding id and the lookup returns the older
case.) -/
theorem claim_C2_createSymptomCase_spec
    (patientId patientName : String) (patientAge : Nat)
    (patientPhone patientDistrict patientState symptomText : String)
    (now : Nat) (raw : StoredRaw)
    (h : getCaseById (mkCaseId patientId now) raw = none) :
    ∃ nc raw',
      createSymptomCase patientId patientName patientAge patientPhone patientDistrict
        patientState symptomText now raw = (nc, raw') ∧
      nc.caseId = mkCaseId patientId now ∧
      nc.patientId = patientId ∧ nc.patientName = patientName ∧
      nc.patientAge = patientAge ∧ nc.patientPhone = patientPhone ∧
      nc.patientDistrict = patientDistrict ∧ nc.patientState = patientState ∧
      nc.symptomText = some symptomText ∧ nc.images = [] ∧ nc.replies = [] ∧
      nc.status = CaseStatus.PENDING ∧ nc.createdAt = now ∧ nc.updatedAt = now ∧
      getAllCases raw' = getAllCases raw ++ [nc] ∧
      getCaseById nc.caseId raw' = some nc := by
  refine ⟨_, _, rfl, rfl, rfl, rfl, rfl, rfl, rfl, rfl, rfl, rfl, rfl, rfl, rfl, rfl, rfl, ?_⟩
  exact getCaseById_saveCaseToStorage _ raw h

/-- Counterexample to C2 as stated: after a submission by patient `PAT-1`
at millisecond 5, a second submission by the same patient in the same
millisecond generates the same case id, and the immediately following
`getCaseById` returns the first (older) case, not the newly created one. -/
theorem claim_C2_counterexample :
    getCaseById (caseOfRequest demoReq2).caseId demoStore2 ≠ some (caseOfRequest demoReq2) ∧
    getCaseById (caseOfRequest demoReq2).caseId demoStore2 = some (caseOfRequest demoReq1) := by
  constructor
  · decide
  · decide

/-- Witness for C2 on a fresh store. -/
theorem claim_C2_witness :
    ∃ nc raw',
      createSymptomCase "PAT-1" "John" 30 "98" "Hyd" "TS" "cough and cold" 5 StoredRaw.absent
        = (nc, raw') ∧
      nc.caseId = mkCaseId "PAT-1" 5 ∧
      nc.patientId = "PAT-1" ∧ nc.patientName = "John" ∧
      nc.patientAge = 30 ∧ nc.patientPhone = "98" ∧
      nc.patientDistrict = "Hyd" ∧ nc.patientState = "TS" ∧
      nc.symptomText = some "cough and cold" ∧ nc.images = [] ∧ nc.replies = [] ∧
      nc.status = CaseStatus.PENDING ∧ nc.createdAt = 5 ∧ nc.updatedAt = 5 ∧
      getAllCases raw' = getAllCases StoredRaw.absent ++ [nc] ∧
      getCaseById nc.caseId raw' = some nc :=
  claim_C2_createSymptomCase_spec "PAT-1" "John" 30 "98" "Hyd" "TS" "cough and cold" 5
    StoredRaw.absent (by decide)

/-- C1: for every case present in the store, `addDoctorReply` followed by
`getCaseById(caseId)` returns a case whose reply sequence is exactly one
longer than before, whose last appended reply carries the submitted
content, type and medication together with the freshly generated reply id
and the current timestamp, whose status becomes `REVIEWED` if it was
`PENDING` (and is left `RESOLVED` if it was already `RESOLVED`), and whose
`updatedAt` equals the current time; the mutated collection persisted back
to storage has the same number of cases as before. -/
theorem claim_C1_addDoctorReply_appends
    (caseId doctorId doctorName specialization content : String)
    (ty : ReplyType) (medication : Option String) (now : Nat) (raw : StoredRaw)
    (c : MedicalCase) (h : getCaseById caseId raw = some c) :
    ∃ c' r,
      (addDoctorReply caseId doctorId doctorName specialization content
        ty medication now raw).1 = some c' ∧
      getCaseById caseId (addDoctorReply caseId doctorId doctorName specialization content
        ty medication now raw).2 = some c' ∧
      c'.replies = c.replies ++ [r] ∧
      c'.replies.length = c.replies.length + 1 ∧
      r.content = content ∧ r.type = ty ∧ r.medication = medication ∧
      r.replyId = mkReplyId now ∧ r.timestamp = now ∧
      (c.status = CaseStatus.PENDING → c'.status = CaseStatus.REVIEWED) ∧
      (c.status = CaseStatus.RESOLVED → c'.status = CaseStatus.RESOLVED) ∧
      c'.updatedAt = now ∧
      (getAllCases (addDoctorReply caseId doctorId doctorName specialization content
        ty medication now raw).2).length = (getAllCases raw).length := by
  have hdef : addDoctorReply caseId doctorId doctorName specialization content
      ty medication now raw =
      (some (appendReplyToCase
          { replyId := mkReplyId now, doctorId := doctorId, doctorName := doctorName
            specialization := specialization, content := content, type := ty
            medication := medication, timestamp := now } now c),
        StoredRaw.good (updateFirstCase caseId
          (appendReplyToCase
            { replyId := mkReplyId now, doctorId := doctorId, doctorName := doctorName
              specialization := specialization, content := content, type := ty
              medication := medication, timestamp := now } now)
          (getAllCases raw))) := by
    unfold addDoctorReply
    rw [h]
  refine ⟨appendReplyToCase
      { replyId := mkReplyId now, doctorId := doctorId, doctorName := doctorName
        specialization := specialization, content := content, type := ty
        medication := medication, timestamp := now } now c,
    { replyId := mkReplyId now, doctorId := doctorId, doctorName := doctorName
      specialization := specialization, content := content, type := ty
      medication := medication, timestamp := now },
    ?_, ?_, rfl, by simp [appendReplyToCase], rfl, rfl, rfl, rfl, rfl, ?_, ?_, rfl, ?_⟩
  · rw [hdef]
  · rw [hdef]
    exact find?_updateFirstCase caseId
      (appendReplyToCase
        { replyId := mkReplyId now, doctorId := doctorId, doctorName := doctorName
          specialization := specialization, content := content, type := ty
          medication := medication, timestamp := now } now)
      (fun x => rfl) (getAllCases raw) c h
  · intro hp
    simp [appendReplyToCase, hp]
  · intro hres
    simp [appendReplyToCase, hres]
  · rw [hdef]
    exact updateFirstCase_length caseId _ (getAllCases raw)

/-- Witness for C1: the sample reply to the case created by the sample
submission, on the one-case store. -/
theorem claim_C1_witness :
    ∃ c' r,
      (addDoctorReply "CASE-PAT-1-5" "DOC-1" "Dr. Smith" "Pulmonologist"
        "Sounds like viral infection" ReplyType.DOCTOR_NOTE (some "Aspirin 500mg")
        9 demoStore1).1 = some c' ∧
      getCaseById "CASE-PAT-1-5" (addDoctorReply "CASE-PAT-1-5" "DOC-1" "Dr. Smith"
        "Pulmonologist" "Sounds like viral infection" ReplyType.DOCTOR_NOTE
        (some "Aspirin 500mg") 9 demoStore1).2 = some c' ∧
      c'.replies = (caseOfRequest demoReq1).replies ++ [r] ∧
      c'.replies.length = (caseOfRequest demoReq1).replies.length + 1 ∧
      r.content = "Sounds like viral infection" ∧ r.type = ReplyType.DOCTOR_NOTE ∧
      r.medication = some "Aspirin 500mg" ∧
      r.replyId = mkReplyId 9 ∧ r.timestamp = 9 ∧
      ((caseOfRequest demoReq1).status = CaseStatus.PENDING →
        c'.status = CaseStatus.REVIEWED) ∧
      ((caseOfRequest demoReq1).status = CaseStatus.RESOLVED →
        c'.status = CaseStatus.RESOLVED) ∧
      c'.updatedAt = 9 ∧
      (getAllCases (addDoctorReply "CASE-PAT-1-5" "DOC-1" "Dr. Smith" "Pulmonologist"
        "Sounds like viral infection" ReplyType.DOCTOR_NOTE (some "Aspirin 500mg")
        9 demoStore1).2).length = (getAllCases demoStore1).length :=
  claim_C1_addDoctorReply_appends "CASE-PAT-1-5" "DOC-1" "Dr. Smith" "Pulmonologist"
    "Sounds like viral infection" ReplyType.DOCTOR_NOTE (some "Aspirin 500mg") 9 demoStore1
    (caseOfRequest demoReq1) (by decide)

/-- C6: in every storage state reachable through the core's write
operations, every stored case is `PENDING` exactly as long as it has no
replies (it is created `PENDING` with no replies, and the first appended
reply — and only a reply append — moves it to `REVIEWED`, never back),
and no core operation ever sets a case to `RESOLVED`. -/
theorem claim_C6_status_invariant (raw : StoredRaw) (h : CoreReachable raw) :
    ∀ c ∈ getAllCases raw,
      (c.status = CaseStatus.PENDING ↔ c.replies = []) ∧
      c.status ≠ CaseStatus.RESOLVED := by
  induction h with
  | init => intro c hc; simp [getAllCases] at hc
  | create r hr ih =>
      intro c hc
      rw [getAllCases_applyCreate] at hc
      rcases List.mem_append.mp hc with hm | hm
      · exact ih c hm
      · have hce : c = caseOfRequest r := by simpa using hm
        subst hce
        have hst : (caseOfRequest r).status = CaseStatus.PENDING := rfl
        have hrep : (caseOfRequest r).replies = [] := rfl
        exact ⟨by rw [hst, hrep]; simp, by rw [hst]; decide⟩
  | reply caseId doctorId doctorName specialization content ty medication now hr ih =>
      intro c hc
      rename_i raw0
      cases hcase : getCaseById caseId raw0 with
      | none =>
          have h2 : (addDoctorReply caseId doctorId doctorName specialization content
              ty medication now raw0).2 = raw0 := by
            unfold addDoctorReply
            rw [hcase]
          rw [h2] at hc
          exact ih c hc
      | some c0 =>
          have h2 : (addDoctorReply caseId doctorId doctorName specialization content
              ty medication now raw0).2 =
              StoredRaw.good (updateFirstCase caseId
                (appendReplyToCase
                  { replyId := mkReplyId now, doctorId := doctorId, doctorName := doctorName
                    specialization := specialization, content := content, type := ty
                    medication := medication, timestamp := now } now)
                (getAllCases raw0)) := by
            unfold addDoctorReply
            rw [hcase]
          rw [h2] at hc
          have hc' : c ∈ updateFirstCase caseId
              (appendReplyToCase
                { replyId := mkReplyId now, doctorId := doctorId, doctorName := doctorName
                  specialization := specialization, content := content, type := ty
                  medication := medication, timestamp := now } now)
              (getAllCases raw0) := hc
          rcases mem_updateFirstCase _ _ _ c hc' with hm | ⟨x, hx, he⟩
          · exact ih c hm
          · subst he
            have hxi := ih x hx
            constructor
            · simp [appendReplyToCase, hxi.2]
            · simp [appendReplyToCase, hxi.2]

/-- Witness for C6: the invariant instantiated at the replied-to case in
the concrete two-step reachable store. -/
theorem claim_C6_witness :
    ((demoRepliedCase.status = CaseStatus.PENDING) ↔ (demoRepliedCase.replies = [])) ∧
    demoRepliedCase.status ≠ CaseStatus.RESOLVED :=
  claim_C6_status_invariant demoRepliedStore
    (CoreReachable.reply "CASE-PAT-1-5" "DOC-1" "Dr. Smith" "Pulmonologist"
      "Sounds like viral infection" ReplyType.DOCTOR_NOTE (some "Aspirin 500mg") 9
      (CoreReachable.create demoReq1 CoreReachable.init))
    demoRepliedCase (by decide)

/-- Counterexample to C7 as stated: the store reached by two
`createSymptomCase` invocations of the same patient in the same
millisecond (a rapid repeated submission) holds two distinct cases with
the same case id `CASE-PAT-1-5`. -/
theorem claim_C7_counterexample :
    CoreReachable demoStore2 ∧
    (getAllCases demoStore2).map (fun c => c.caseId)
      = ["CASE-PAT-1-5", "CASE-PAT-1-5"] ∧
    (getAllCases demoStore2).head? ≠ (getAllCases demoStore2).getLast? :=
  ⟨CoreReachable.create demoReq2 (CoreReachable.create demoReq1 CoreReachable.init),
    by decide, by decide⟩

/-- C7 (amended): case ids are unique within the persisted collection for
every sequence of `createSymptomCase` invocations in which no two
invocations share both the patient id and the millisecond timestamp; the
generated id `CASE-(patientId)-(Date.now())` determines that pair
uniquely.  (Uniqueness fails for same-patient submissions within one
millisecond: see the counterexample.) -/
theorem claim_C7_caseIds_unique (reqs : List CreateRequest)
    (h : reqs.Pairwise (fun a b => a.patientId ≠ b.patientId ∨ a.now ≠ b.now)) :
    (getAllCases (runCreates reqs StoredRaw.absent)).Pairwise
      (fun a b => a.caseId ≠ b.caseId) := by
  rw [getAllCases_runCreates]
  rw [show getAllCases StoredRaw.absent = [] from rfl, List.nil_append]
  rw [List.pairwise_map]
  refine h.imp ?_
  intro a b hab hco
  have hco' : mkCaseId a.patientId a.now = mkCaseId b.patientId b.now := hco
  rcases mkCaseId_inj hco' with ⟨hp, ht⟩
  rcases hab with h1 | h1
  · exact h1 hp
  · exact h1 ht

/-- Witness for C7: two submissions by the same patient at distinct
milliseconds yield distinct case ids. -/
theorem claim_C7_witness :
    (getAllCases (runCreates [demoReq1, demoReq3] StoredRaw.absent)).Pairwise
      (fun a b => a.caseId ≠ b.caseId) :=
  claim_C7_caseIds_unique [demoReq1, demoReq3] (by decide)

/-- C8: in the poll-and-render path, whenever the underlying read of the
store fails — the stored value is absent or fails to parse — the store
substitutes an empty result (the failure is logged inside the store read),
so `loadCases` stores an empty list regardless of the previous component
state (no stale data is retained) and the component renders the
empty-state display rather than crashing. -/
theorem claim_C8_failure_renders_empty (pid : String) (raw : StoredRaw)
    (st : SymptomDisplayState)
    (h : raw = StoredRaw.absent ∨ raw = StoredRaw.malformed) :
    loadCases pid raw st = { cases := [], loading := false } ∧
    renderSymptomDisplay (loadCases pid raw st) = SymptomView.emptyView := by
  rcases h with rfl | rfl <;>
    simp [loadCases, getCasesByPatient, getAllCases, renderSymptomDisplay]

/-- Witness for C8: a malformed stored value, read by a component that
previously rendered a non-empty list, yields the empty list and the
empty-state display. -/
theorem claim_C8_witness :
    loadCases "PAT-1" StoredRaw.malformed
        { cases := [caseOfRequest demoReq1], loading := false }
      = { cases := [], loading := false } ∧
    renderSymptomDisplay (loadCases "PAT-1" StoredRaw.malformed
        { cases := [caseOfRequest demoReq1], loading := false })
      = SymptomView.emptyView :=
  claim_C8_failure_renders_empty "PAT-1" StoredRaw.malformed
    { cases := [caseOfRequest demoReq1], loading := false } (Or.inr rfl)

/-- C9: under the timer semantics, the polling effect installed by
`SymptomDisplay` performs a read exactly at mount time 0 (the immediate
read) and at every positive multiple of 3000 time-units before the view's
teardown; at and after teardown the cancelled interval produces no
further reads — `pollReadsAt` is false for every `t ≥ teardown`. -/
theorem claim_C9_poll_schedule (teardown t : Nat) :
    pollReadsAt symptomDisplayEffect teardown t = true ↔
      t < teardown ∧ (t = 0 ∨ (t ≠ 0 ∧ t % 3000 = 0)) := by
  unfold pollReadsAt symptomDisplayEffect
  by_cases ht : t < teardown
  · rw [if_pos ht]
    simp [ht]
  · rw [if_neg ht]
    simp [ht]

/-- C10: the case list `SymptomDisplay` renders is exactly
`getCasesByPatient(patientId)` restricted to the cases whose
`symptomText` is present and non-empty, in reverse storage order (newest
first): every rendered case belongs to the patient and has a non-empty
symptom text, the rendered sequence read backwards is a sublist of the
stored collection, and the stored collection is left unchanged by the
load-and-render tick. -/
theorem claim_C10_rendered_cases (pid : String) (raw : StoredRaw)
    (st : SymptomDisplayState) :
    renderedCases (renderSymptomDisplay (loadCases pid raw st)) =
      ((getCasesByPatient pid raw).filter symptomTextTruthy).reverse ∧
    (∀ c ∈ renderedCases (renderSymptomDisplay (loadCases pid raw st)),
      c.patientId = pid ∧ ∃ s, c.symptomText = some s ∧ s ≠ "") ∧
    (renderedCases (renderSymptomDisplay (loadCases pid raw st))).reverse.Sublist
      (getAllCases raw) ∧
    (symptomDisplayTick pid raw st).2 = raw := by
  have hr : renderedCases (renderSymptomDisplay (loadCases pid raw st)) =
      ((getCasesByPatient pid raw).filter symptomTextTruthy).reverse := by
    unfold loadCases renderSymptomDisplay
    by_cases he : ((getCasesByPatient pid raw).filter symptomTextTruthy).isEmpty
    · have hnil : (getCasesByPatient pid raw).filter symptomTextTruthy = [] :=
        List.isEmpty_iff.mp he
      simp [renderedCases, hnil]
    · simp [renderedCases, he]
  refine ⟨hr, ?_, ?_, rfl⟩
  · intro c hc
    rw [hr] at hc
    have hc' := List.mem_reverse.mp hc
    rcases List.mem_filter.mp hc' with ⟨h1, h2⟩
    have h1' : c ∈ (getAllCases raw).filter (fun x => x.patientId == pid) := h1
    rcases List.mem_filter.mp h1' with ⟨h0, hpid⟩
    refine ⟨by simpa using hpid, ?_⟩
    unfold symptomTextTruthy at h2
    cases hsx : c.symptomText with
    | none => rw [hsx] at h2; cases h2
    | some s =>
        rw [hsx] at h2
        exact ⟨s, rfl, by simpa using h2⟩
  · rw [hr]
    rw [List.reverse_reverse]
    exact (List.filter_sublist _).trans (List.filter_sublist _)
